import Mathlib

/-!
Verification of the series normalization, retry, collection, tidy and pivot
pipeline of the economics_metrics repository (ecb_suite.py,
economics_metrics/ecb_data.py, fred_downloader.py).

The pandas dataframes are embedded as lists of string-cell rows together with a
list of column names.  The external cell parsers (pandas to_datetime and
to_numeric, which live outside the repository) are parameters of every
definition that uses them: dates parse to Nat (an abstract day ordinal, ordered
as calendar dates are) and values parse to Rat (standing in for float64, which
is only carried, never computed with).
-/

namespace EconMetrics

/-- Character-by-character uppercase; models the Python str.upper() calls that
the sources apply to ASCII column names. -/
def upperAscii (s : String) : String := String.mk (s.data.map Char.toUpper)

/-- Models str.replace of a comma by a point, as applied by
pandas .str.replace in _normalize_ecb_df (single-character pattern, so a
character map is exact). -/
def replaceCommaDot (s : String) : String :=
  String.mk (s.data.map (fun c => if c = ',' then '.' else c))

/-- Models Python str.strip(): drop whitespace from both ends. -/
def trimAscii (s : String) : String :=
  String.mk (((s.data.dropWhile Char.isWhitespace).reverse.dropWhile
    Char.isWhitespace).reverse)

/-- Code-point lexicographic comparison of character lists; models how Python
and pandas order the strings that appear as column labels. -/
def charListLEb : List Char → List Char → Bool
  | [], _ => true
  | _ :: _, [] => false
  | a :: as, b :: bs =>
    if a.toNat < b.toNat then true
    else if b.toNat < a.toNat then false
    else charListLEb as bs

/-- Boolean lexicographic order on strings. -/
def strLEb (a b : String) : Bool := charListLEb a.data b.data

/-- Lexicographic order on strings as a proposition. -/
def strLE (a b : String) : Prop := strLEb a b = true

instance : DecidableRel strLE := fun a b => by unfold strLE; infer_instance

/-- Keep the first occurrence of every element, dropping later duplicates;
auxiliary accumulator form. -/
def firstSeenAux {α : Type} [DecidableEq α] (seen : List α) : List α → List α
  | [] => []
  | a :: l => if a ∈ seen then firstSeenAux seen l else a :: firstSeenAux (a :: seen) l

/-- Models pandas unique / groupby key collection: the distinct elements of a
list in first-encounter order. -/
def firstSeen {α : Type} [DecidableEq α] (l : List α) : List α := firstSeenAux [] l

/-- A raw tabular response: column names plus rows of string cells, the shape
of the dataframes handed to the normalizers. -/
structure RawFrame where
  columns : List String
  rows : List (List String)
deriving DecidableEq, Repr

/-- The Python exception classes the embedded code can raise. -/
inductive PyError where
  | keyError (msg : String)
  | valueError (msg : String)
  | transport (msg : String)
  | runtimeError (msg : String)
  | downloadError (msg : String)
deriving DecidableEq, Repr

/-! ## ecb_suite._normalize_ecb_df -/

/-- Models the dict comprehension plus .get of _normalize_ecb_df: the column
whose uppercase form matches the key (later columns overwrite earlier ones in
the dict, hence getLast?), defaulting to the key itself. -/
def resolveCol (columns : List String) (key : String) : String :=
  ((columns.filter (fun c => upperAscii c == upperAscii key)).getLast?).getD key

/-- Models df.rename(columns=(date_col to date, val_col to value)); when the
two resolved names coincide the later dict entry (value) wins, as in Python. -/
def renamedColumns (columns : List String) (date_key value_key : String) : List String :=
  let date_col := resolveCol columns date_key
  let val_col := resolveCol columns value_key
  columns.map (fun c => if c = val_col then "value" else if c = date_col then "date" else c)

/-- Positions of the renamed date and value columns, when both exist; a column
access on a missing label raises KeyError in pandas, modelled by none. -/
def resolvedIndices (columns : List String) (date_key value_key : String) :
    Option (Nat × Nat) :=
  match (renamedColumns columns date_key value_key).findIdx? (fun c => c == "date"),
        (renamedColumns columns date_key value_key).findIdx? (fun c => c == "value") with
  | some di, some vi => some (di, vi)
  | _, _ => none

/-- First pass of _normalize_ecb_df on one row: read the date and value cells,
coerce the date (to_datetime with errors=coerce) and drop the row if it fails
(dropna on the date); the raw value cell is carried along. -/
def stage1Parse (pd : String → Option Nat) (di vi : Nat) (r : List String) :
    Option (Nat × String) := do
  let dc ← r[di]?
  let vc ← r[vi]?
  let d ← pd dc
  pure (d, vc)

/-- Second pass of _normalize_ecb_df on one kept row: replace the decimal comma
by a point, coerce to a number (to_numeric with errors=coerce) and drop the
entry if the coercion fails (the trailing dropna). -/
def valueParse (tn : String → Option ℚ) (p : Nat × String) : Option (Nat × ℚ) :=
  (tn (replaceCommaDot p.2)).map (fun v => (p.1, v))

/-- Ordering of the date-indexed entries used by sort_index. -/
def fstLE {β : Type} (a b : Nat × β) : Prop := a.1 ≤ b.1

instance {β : Type} : DecidableRel (@fstLE β) := fun a b => by
  unfold fstLE; infer_instance

instance {β : Type} : IsTotal (Nat × β) fstLE := ⟨fun a b => Nat.le_total a.1 b.1⟩

instance {β : Type} : IsTrans (Nat × β) fstLE := ⟨fun _ _ _ h1 h2 => Nat.le_trans h1 h2⟩

/-- Embeds ecb_suite._normalize_ecb_df: resolve the date and value columns
case-insensitively (KeyError when either is absent after the rename), coerce
dates and drop failures, sort ascending by date, then coerce values (after the
comma-to-point replacement) and drop failures.  The date and value cell
parsers are the pandas collaborators, passed as parameters. -/
def _normalize_ecb_df (pd : String → Option Nat) (tn : String → Option ℚ)
    (date_key value_key : String) (df : RawFrame) : Except PyError (List (Nat × ℚ)) :=
  match resolvedIndices df.columns date_key value_key with
  | none => .error (.keyError "date/value columns not in index")
  | some (di, vi) =>
    .ok (((df.rows.filterMap (stage1Parse pd di vi)).insertionSort fstLE).filterMap
      (valueParse tn))

/-- Combined per-row parse of _normalize_ecb_df, used to state properties: the
entry an input row contributes when both of its cells parse. -/
def parseBoth (pd : String → Option Nat) (tn : String → Option ℚ) (di vi : Nat)
    (r : List String) : Option (Nat × ℚ) := do
  let dc ← r[di]?
  let vc ← r[vi]?
  let d ← pd dc
  let v ← tn (replaceCommaDot vc)
  pure (d, v)

/-! ## ecb_suite.fetch_series_retry -/

/-- One attempt of the retry loop: the transport call (ecbdata.get_series,
modelled as an oracle indexed by the attempt number, failing with a transport
error) followed by normalization with the default column keys; both run inside
the same try block in the source. -/
def attemptResult (oracle : Nat → Except String RawFrame) (pd : String → Option Nat)
    (tn : String → Option ℚ) (a : Nat) : Except PyError (List (Nat × ℚ)) :=
  match oracle a with
  | .error msg => .error (.transport msg)
  | .ok raw => _normalize_ecb_df pd tn "TIME_PERIOD" "OBS_VALUE" raw

/-- The attempt loop of fetch_series_retry: attempt counts 1, 2, ...; remaining
is the number of loop iterations left.  On an exception the loop continues
when attempt < retries and re-raises on the final attempt; falling out of the
loop reaches the trailing raise RuntimeError. -/
def fetchGo (res : Nat → Except PyError (List (Nat × ℚ))) (retries : Nat) :
    Nat → Nat → Except PyError (List (Nat × ℚ))
  | _, 0 => .error (.runtimeError "Failed to fetch series")
  | attempt, remaining + 1 =>
    match res attempt with
    | .ok s => .ok s
    | .error e => if attempt < retries then fetchGo res retries (attempt + 1) remaining
                  else .error e

/-- Embeds ecb_suite.fetch_series_retry (the pause only sleeps, so it is not
modelled): run the attempt loop starting at attempt 1 with retries iterations
available. -/
def fetch_series_retry (oracle : Nat → Except String RawFrame)
    (pd : String → Option Nat) (tn : String → Option ℚ) (retries : Nat) :
    Except PyError (List (Nat × ℚ)) :=
  fetchGo (attemptResult oracle pd tn) retries 1 retries

/-- Rewrite one cell of a row, leaving the others unchanged. -/
def mapCell (f : String → String) : Nat → List String → List String
  | _, [] => []
  | 0, c :: r => f c :: r
  | n + 1, c :: r => c :: mapCell f n r

/-- The same frame with every value cell rewritten from decimal-comma to
decimal-point form; used to state the decimal-separator invariance claim. -/
def replaceValueCells (vi : Nat) (df : RawFrame) : RawFrame :=
  ⟨df.columns, df.rows.map (mapCell replaceCommaDot vi)⟩

/-! ## ecb_suite.download_euribor_all (the multi-series collector) -/

/-- A wide table: one column label per collected series, and one row per date
holding one optional cell per series (none models the NaN a missing date
leaves behind). -/
structure WideTable where
  columns : List String
  rows : List (Nat × List (Option ℚ))
deriving DecidableEq, Repr

/-- Models pd.concat(cols, axis=1).sort_index(): align the named series on the
union of all their dates, sorted ascending, one optional cell per series and
date, looked up by date (first match, the indices being unique in pandas). -/
def concatAxis1 (cols : List (String × List (Nat × ℚ))) : WideTable :=
  let dates := List.insertionSort (fun a b : Nat => a ≤ b)
    (firstSeen (cols.flatMap (fun c => c.2.map Prod.fst)))
  ⟨cols.map Prod.fst,
   dates.map (fun d =>
     (d, cols.map (fun c => (c.2.find? (fun p => p.1 == d)).map Prod.snd)))⟩

/-- The fetch loop of download_euribor_all: fetch each mapped series in order,
keeping the friendly name; any fetch failure aborts the collection. -/
def collectCols (fetch : String → Except PyError (List (Nat × ℚ))) :
    List (String × String) → Except PyError (List (String × List (Nat × ℚ)))
  | [] => .ok []
  | nk :: rest =>
    match fetch nk.2 with
    | .error e => .error e
    | .ok s =>
      match collectCols fetch rest with
      | .error e => .error e
      | .ok tail => .ok ((nk.1, s) :: tail)

/-- Embeds ecb_suite.download_euribor_all: fetch every series of the ordered
mapping (through the retry orchestrator, here a parameter), then concatenate
into one wide frame aligned and sorted by date.  The print calls and the
float64 cast carry no data and are not modelled. -/
def download_euribor_all (fetch : String → Except PyError (List (Nat × ℚ)))
    (series_map : List (String × String)) : Except PyError WideTable :=
  match collectCols fetch series_map with
  | .error e => .error e
  | .ok cols => .ok (concatAxis1 cols)

/-! ## ecb_suite.hicp_by_sector_long (the tidy builder) -/

/-- One tidy observation: date, sector name, entity code, value. -/
structure TidyObs where
  date : Nat
  sector : String
  geo : String
  value : ℚ
deriving DecidableEq, Repr

/-- The tidy base table: its column labels and its observation rows. -/
structure TidyTable where
  columns : List String
  rows : List TidyObs
deriving DecidableEq, Repr

/-- The measure whitelist of ecb_suite (MEASURE_CHOICES). -/
def MEASURE_CHOICES : List String := ["ANR", "INX"]

/-- The compound series key built by _hicp_key. -/
def hicpKeyStr (geo coicop measure : String) : String :=
  "ICP.M." ++ geo ++ ".N." ++ coicop ++ ".4." ++ measure

/-- Embeds ecb_suite._hicp_key: validate the measure (ValueError otherwise)
and build the compound key. -/
def _hicp_key (geo coicop measure : String) : Except PyError String :=
  if measure ∈ MEASURE_CHOICES then .ok (hicpKeyStr geo coicop measure)
  else .error (.valueError "measure must be one of MEASURE_CHOICES")

/-- Lexicographic (date, sector, geo) order used by the final sort_values. -/
def tidyLEb (a b : TidyObs) : Bool :=
  if a.date ≠ b.date then decide (a.date ≤ b.date)
  else if a.sector ≠ b.sector then strLEb a.sector b.sector
  else strLEb a.geo b.geo

/-- Propositional form of the tidy row order. -/
def tidyLE (a b : TidyObs) : Prop := tidyLEb a b = true

instance : DecidableRel tidyLE := fun a b => by unfold tidyLE; infer_instance

/-- Inner loop of hicp_by_sector_long over the entity codes for one sector:
build the key, fetch, skip the pair when the series is empty, otherwise tag
every (date, value) pair with the sector name and the entity code. -/
def tidyGeoLoop (fetch : String → Except PyError (List (Nat × ℚ)))
    (sector_name coicop measure : String) :
    List String → Except PyError (List TidyObs)
  | [] => .ok []
  | geo :: rest =>
    match _hicp_key geo coicop measure with
    | .error e => .error e
    | .ok key =>
      match fetch key with
      | .error e => .error e
      | .ok s =>
        match tidyGeoLoop fetch sector_name coicop measure rest with
        | .error e => .error e
        | .ok tail =>
          .ok ((if s.isEmpty then []
                else s.map (fun p => TidyObs.mk p.1 sector_name geo p.2)) ++ tail)

/-- Outer loop of hicp_by_sector_long over the sector mapping. -/
def tidySectorLoop (fetch : String → Except PyError (List (Nat × ℚ))) (measure : String)
    (geos : List String) :
    List (String × String) → Except PyError (List TidyObs)
  | [] => .ok []
  | sc :: rest =>
    match tidyGeoLoop fetch sc.1 sc.2 measure geos with
    | .error e => .error e
    | .ok here =>
      match tidySectorLoop fetch measure geos rest with
      | .error e => .error e
      | .ok tail => .ok (here ++ tail)

/-- Embeds ecb_suite.hicp_by_sector_long: sweep sectors (outer) and entities
(inner), skip empty series, and sort the collected rows by (date, sector,
geo); both the empty and the non-empty branch of the source produce a frame
with columns date, sector, geo, value. -/
def hicp_by_sector_long (fetch : String → Except PyError (List (Nat × ℚ)))
    (sectors : List (String × String)) (geos : List String) (measure : String) :
    Except PyError TidyTable :=
  match tidySectorLoop fetch measure geos sectors with
  | .error e => .error e
  | .ok rows => .ok ⟨["date", "sector", "geo", "value"], rows.insertionSort tidyLE⟩

/-! ## ecb_suite.pivots_from_hicp_long (the pivot engine) -/

/-- A pivot view: the two leading key columns, the value column labels in
their final order, and one row per (date, key) pair with one optional cell per
value column. -/
structure PivotFrame where
  leadCols : List String
  valueCols : List String
  rows : List ((Nat × String) × List (Option ℚ))
deriving DecidableEq, Repr

/-- Column labels produced by pandas pivot_table: the distinct labels of the
pivoted column, sorted ascending. -/
def pivot_table_cols (labels : List String) : List String :=
  List.insertionSort strLE (firstSeen labels)

/-- Lexicographic (date, string-key) order of the pivot rows. -/
def keyLEb (a b : Nat × String) : Bool :=
  if a.1 ≠ b.1 then decide (a.1 ≤ b.1) else strLEb a.2 b.2

/-- Propositional form of the pivot row order. -/
def keyLE (a b : Nat × String) : Prop := keyLEb a b = true

instance : DecidableRel keyLE := fun a b => by unfold keyLE; infer_instance

/-- First half of pivots_from_hicp_long (the filterbyCountry frame): pivot the
tidy rows over (date, country) against the sector labels (aggfunc first, so
the first matching observation wins), then reorder the value columns as the
source does: the configured sector order restricted to the frame columns,
followed by the remaining frame columns. -/
def pivots_filterbyCountry (df_long : List TidyObs) (sector_order : List String) :
    PivotFrame :=
  let pivotCols := pivot_table_cols (df_long.map (fun o => o.sector))
  let dfColumns := ["date", "country"] ++ pivotCols
  let existing := sector_order.filter (fun c => decide (c ∈ dfColumns))
  let others := dfColumns.filter (fun c => decide (c ∉ existing ++ ["date", "country"]))
  let keys := List.insertionSort keyLE (firstSeen (df_long.map (fun o => (o.date, o.geo))))
  ⟨["date", "country"], existing ++ others,
   keys.map (fun k =>
     (k, (existing ++ others).map (fun c =>
       (df_long.find? (fun o => o.date == k.1 && o.geo == k.2 && o.sector == c)).map
         (fun o => o.value))))⟩

/-- Second half of pivots_from_hicp_long (the filterbySector frame), symmetric
to the country view with entity codes as value columns. -/
def pivots_filterbySector (df_long : List TidyObs) (geos : List String) : PivotFrame :=
  let pivotCols := pivot_table_cols (df_long.map (fun o => o.geo))
  let dfColumns := ["date", "sector"] ++ pivotCols
  let geo_order := geos.filter (fun g => decide (g ∈ dfColumns))
  let others := dfColumns.filter (fun c => decide (c ∉ geo_order ++ ["date", "sector"]))
  let keys := List.insertionSort keyLE (firstSeen (df_long.map (fun o => (o.date, o.sector))))
  ⟨["date", "sector"], geo_order ++ others,
   keys.map (fun k =>
     (k, (geo_order ++ others).map (fun c =>
       (df_long.find? (fun o => o.date == k.1 && o.sector == k.2 && o.geo == c)).map
         (fun o => o.value))))⟩

/-- Embeds ecb_suite.pivots_from_hicp_long: build both pivot views from the
tidy table; the sector mapping contributes only its key order. -/
def pivots_from_hicp_long (df_long : List TidyObs) (sectors_keys : List String)
    (geos : List String) : PivotFrame × PivotFrame :=
  (pivots_filterbyCountry df_long sectors_keys, pivots_filterbySector df_long geos)

/-- The by-entity value-column order as the specification words it: configured
categories that occur in the input, in configured order, then unexpected
categories in first-seen (encounter) order.  Stated only to compare with what
the code computes. -/
def specByEntityValueCols (df_long : List TidyObs) (sector_order : List String) :
    List String :=
  let occurring := firstSeen (df_long.map (fun o => o.sector))
  sector_order.filter (fun c => decide (c ∈ occurring))
    ++ occurring.filter (fun c => decide (c ∉ sector_order))

/-! ## Serialized output artifacts -/

/-- One serialized output artifact: its default file name, its economic kind,
and the float and date formats passed to to_csv at its write site. -/
structure OutputArtifact where
  name : String
  kind : String
  float_format : String
  date_format : String
deriving DecidableEq, Repr

/-- The to_csv write sites of ecb_suite.py (main block) and fred_downloader.py,
with their literal float_format and date_format arguments.  Kinds: the Euribor
and the two rate files carry interest rates, the FX file carries exchange
rates, the HICP files and the two CPI inflation files carry price indices. -/
def serializedArtifacts : List OutputArtifact :=
  [⟨"euribor_3m_6m_12m_ecb.csv", "interest_rate", "%.6f", "%Y-%m-%d"⟩,
   ⟨"fx_daily_ecb.csv", "fx", "%.6f", "%Y-%m-%d"⟩,
   ⟨"hicp_all_items_by_country.csv", "price_index", "%.4f", "%Y-%m-%d"⟩,
   ⟨"hicp_sectors_filterbyCountry.csv", "price_index", "%.4f", "%Y-%m-%d"⟩,
   ⟨"hicp_sectors_filterbySector.csv", "price_index", "%.4f", "%Y-%m-%d"⟩,
   ⟨"us_inflation.csv", "price_index", "%.6f", "%Y-%m-%d"⟩,
   ⟨"us_interest_rates.csv", "interest_rate", "%.6f", "%Y-%m-%d"⟩,
   ⟨"data/us_inflation.csv", "price_index", "%.6f", "%Y-%m-%d"⟩,
   ⟨"data/us_interest_rates.csv", "interest_rate", "%.6f", "%Y-%m-%d"⟩]

/-- The per-kind float format as the specification words it: price-index
artifacts 4 decimal places, interest-rate and FX artifacts 6. -/
def specFloatFormat (kind : String) : String :=
  if kind = "price_index" then "%.4f" else "%.6f"

/-! ## economics_metrics.ecb_data.fetch_series_dataframe -/

/-- Index of the first column whose stripped uppercase name is TIME_PERIOD,
as fetch_series_dataframe looks it up (first match, loop with break). -/
def timeColIdx (frame : RawFrame) : Option Nat :=
  frame.columns.findIdx? (fun c => upperAscii (trimAscii c) == "TIME_PERIOD")

/-- Index of the first column whose stripped uppercase name matches the
configured value column. -/
def valueColIdx (vcol : String) (frame : RawFrame) : Option Nat :=
  frame.columns.findIdx? (fun c => upperAscii (trimAscii c) == upperAscii vcol)

/-- Embeds the dataframe shaping of economics_metrics.ecb_data.
fetch_series_dataframe after the download and metadata-strip steps: resolve
the TIME_PERIOD and value columns (DownloadError when absent), coerce the
dates and fail with DownloadError when every date fails to parse, coerce the
values keeping failures as missing cells, drop rows without a date and sort
ascending by date. -/
def fetch_series_dataframe (pd : String → Option Nat) (tn : String → Option ℚ)
    (vcol : String) (frame : RawFrame) : Except PyError (List (Nat × Option ℚ)) :=
  match timeColIdx frame with
  | none => .error (.downloadError "missing TIME_PERIOD column")
  | some ti =>
    match valueColIdx vcol frame with
    | none => .error (.downloadError ("missing " ++ vcol ++ " column"))
    | some vi =>
      if (frame.rows.map (fun r => (r[ti]?).bind pd)).all Option.isNone then
        .error (.downloadError "invalid TIME_PERIOD values")
      else
        .ok ((frame.rows.filterMap (fun r =>
          ((r[ti]?).bind pd).map (fun d => (d, (r[vi]?).bind tn)))).insertionSort fstLE)

/-! ## General helper lemmas -/

theorem length_filterMap_eq {α β : Type} (f : α → Option β) (l : List α) :
    (l.filterMap f).length = (l.filter (fun a => (f a).isSome)).length := by
  induction l with
  | nil => rfl
  | cons a l ih =>
    cases hf : f a <;> simp [List.filterMap_cons, List.filter_cons, hf, ih]

theorem pairwise_filterMap_rel {α β : Type} {R : α → α → Prop} {S : β → β → Prop}
    (f : α → Option β)
    (h : ∀ a b : α, ∀ c d : β, R a b → f a = some c → f b = some d → S c d) :
    ∀ {l : List α}, l.Pairwise R → (l.filterMap f).Pairwise S := by
  intro l
  induction l with
  | nil => intro _; simp
  | cons a l ih =>
    intro hl
    obtain ⟨ha, hl⟩ := List.pairwise_cons.mp hl
    cases hf : f a with
    | none => simpa [List.filterMap_cons, hf] using ih hl
    | some c =>
      simp only [List.filterMap_cons, hf]
      refine List.Pairwise.cons ?_ (ih hl)
      intro d hd
      obtain ⟨b, hb, hfb⟩ := List.mem_filterMap.mp hd
      exact h a b c d (ha b hb) hf hfb

theorem mem_firstSeenAux {α : Type} [DecidableEq α] (l : List α) :
    ∀ (seen : List α) (a : α), a ∈ firstSeenAux seen l ↔ a ∈ l ∧ a ∉ seen := by
  induction l with
  | nil => intro seen a; simp [firstSeenAux]
  | cons b l ih =>
    intro seen a
    by_cases hb : b ∈ seen
    · simp only [firstSeenAux, if_pos hb, ih, List.mem_cons]
      by_cases hab : a = b
      · subst hab; tauto
      · tauto
    · simp only [firstSeenAux, if_neg hb, List.mem_cons, ih]
      by_cases hab : a = b
      · subst hab; tauto
      · tauto

theorem mem_firstSeen {α : Type} [DecidableEq α] (l : List α) (a : α) :
    a ∈ firstSeen l ↔ a ∈ l := by
  simp [firstSeen, mem_firstSeenAux]

theorem nodup_firstSeenAux {α : Type} [DecidableEq α] (l : List α) :
    ∀ seen : List α, (firstSeenAux seen l).Nodup := by
  induction l with
  | nil => intro seen; simp [firstSeenAux]
  | cons b l ih =>
    intro seen
    by_cases hb : b ∈ seen
    · simpa [firstSeenAux, if_pos hb] using ih seen
    · simp only [firstSeenAux, if_neg hb]
      refine List.Nodup.cons ?_ (ih (b :: seen))
      intro hmem
      exact ((mem_firstSeenAux l (b :: seen) b).mp hmem).2 (List.mem_cons_self b seen)

theorem nodup_firstSeen {α : Type} [DecidableEq α] (l : List α) : (firstSeen l).Nodup :=
  nodup_firstSeenAux l []

theorem charListLEb_total (as : List Char) :
    ∀ bs, charListLEb as bs = true ∨ charListLEb bs as = true := by
  induction as with
  | nil => intro bs; left; rfl
  | cons a as ih =>
    intro bs
    cases bs with
    | nil => right; rfl
    | cons b bs =>
      rcases Nat.lt_trichotomy a.toNat b.toNat with h | h | h
      · left; simp [charListLEb, h]
      · rcases ih bs with h2 | h2
        · left; simp [charListLEb, h, Nat.lt_irrefl, h2]
        · right; simp [charListLEb, h, Nat.lt_irrefl, h2]
      · right; simp [charListLEb, h]

theorem charListLEb_trans (as : List Char) :
    ∀ bs cs, charListLEb as bs = true → charListLEb bs cs = true →
      charListLEb as cs = true := by
  induction as with
  | nil => intro bs cs _ _; rfl
  | cons a as ih =>
    intro bs cs h1 h2
    cases bs with
    | nil => simp [charListLEb] at h1
    | cons b bs =>
      cases cs with
      | nil => simp [charListLEb] at h2
      | cons c cs =>
        simp only [charListLEb] at h1 h2 ⊢
        rcases Nat.lt_trichotomy a.toNat b.toNat with hab | hab | hab
        · rcases Nat.lt_trichotomy b.toNat c.toNat with hbc | hbc | hbc
          · rw [if_pos (by omega)]
          · rw [if_pos (by omega)]
          · rw [if_neg (by omega), if_pos (by omega)] at h2
            exact absurd h2 (by simp)
        · rcases Nat.lt_trichotomy b.toNat c.toNat with hbc | hbc | hbc
          · rw [if_pos (by omega)]
          · rw [if_neg (by omega : ¬ a.toNat < b.toNat),
              if_neg (by omega : ¬ b.toNat < a.toNat)] at h1
            rw [if_neg (by omega : ¬ b.toNat < c.toNat),
              if_neg (by omega : ¬ c.toNat < b.toNat)] at h2
            rw [if_neg (by omega : ¬ a.toNat < c.toNat),
              if_neg (by omega : ¬ c.toNat < a.toNat)]
            exact ih bs cs h1 h2
          · rw [if_neg (by omega), if_pos (by omega)] at h2
            exact absurd h2 (by simp)
        · rw [if_neg (by omega), if_pos (by omega)] at h1
          exact absurd h1 (by simp)

instance : IsTotal String strLE :=
  ⟨fun a b => charListLEb_total a.data b.data⟩

instance : IsTrans String strLE :=
  ⟨fun a b c h1 h2 => charListLEb_trans a.data b.data c.data h1 h2⟩

theorem mapCell_getElem? (f : String → String) (r : List String) :
    ∀ (vi j : Nat), (mapCell f vi r)[j]? = if j = vi then (r[j]?).map f else r[j]? := by
  induction r with
  | nil => intro vi j; simp [mapCell]
  | cons c r ih =>
    intro vi j
    cases vi with
    | zero =>
      cases j with
      | zero => simp [mapCell]
      | succ j => simp [mapCell]
    | succ vi =>
      cases j with
      | zero => simp [mapCell]
      | succ j => simpa [mapCell, Nat.succ_eq_add_one] using ih vi j

/-! ## Lemmas about the embedded definitions -/

theorem stage1_bind_valueParse (pd : String → Option Nat) (tn : String → Option ℚ)
    (di vi : Nat) (r : List String) :
    (stage1Parse pd di vi r).bind (valueParse tn) = parseBoth pd tn di vi r := by
  unfold stage1Parse valueParse parseBoth
  cases hd : r[di]? with
  | none => simp
  | some dc =>
    cases hv : r[vi]? with
    | none => simp
    | some vc =>
      cases hp : pd dc with
      | none => simp [hp]
      | some d =>
        cases ht : tn (replaceCommaDot vc) <;> simp [hp, ht]

theorem valueParse_fst (tn : String → Option ℚ) (p : Nat × String) (q : Nat × ℚ)
    (h : valueParse tn p = some q) : q.1 = p.1 := by
  unfold valueParse at h
  cases ht : tn (replaceCommaDot p.2) with
  | none => rw [ht] at h; simp at h
  | some v => rw [ht] at h; simp at h; rw [← h]

theorem attemptResult_ne_runtimeError (oracle : Nat → Except String RawFrame)
    (pd : String → Option Nat) (tn : String → Option ℚ) (a : Nat) (msg : String) :
    attemptResult oracle pd tn a ≠ .error (.runtimeError msg) := by
  unfold attemptResult _normalize_ecb_df
  cases oracle a with
  | error m => simp
  | ok raw =>
    cases hri : resolvedIndices raw.columns "TIME_PERIOD" "OBS_VALUE" with
    | none => simp [hri]
    | some p => obtain ⟨di, vi⟩ := p; simp [hri]

theorem fetchGo_reaches (res : Nat → Except PyError (List (Nat × ℚ))) (retries : Nat) :
    ∀ (remaining attempt : Nat), attempt + remaining = retries + 1 → attempt ≤ retries →
      (∃ s, fetchGo res retries attempt remaining = .ok s) ∨
        fetchGo res retries attempt remaining = res retries := by
  intro remaining
  induction remaining with
  | zero => intro attempt h1 h2; omega
  | succ remaining ih =>
    intro attempt h1 h2
    cases hres : res attempt with
    | ok s => exact Or.inl ⟨s, by simp [fetchGo, hres]⟩
    | error e =>
      by_cases hlt : attempt < retries
      · have := ih (attempt + 1) (by omega) (by omega)
        simpa [fetchGo, hres, hlt] using this
      · have ha : attempt = retries := by omega
        right
        simp only [fetchGo, hres, if_neg hlt]
        rw [← ha, hres]

/-! ## Sample inputs used by the witnesses and counterexamples -/

/-- A concrete date parser standing in for pandas to_datetime on the sample
inputs: the first four months of 2024, everything else unparseable. -/
def pdSample : String → Option Nat := fun s =>
  if s = "2024-01" then some 1 else if s = "2024-02" then some 2
  else if s = "2024-03" then some 3 else if s = "2024-04" then some 4 else none

/-- A concrete numeric parser standing in for pandas to_numeric on the sample
inputs (values scaled to integers), everything else unparseable. -/
def tnSample : String → Option ℚ := fun s =>
  if s = "-0.40" then some (-40) else if s = "-0.41" then some (-41)
  else if s = "1.0" then some 1 else if s = "1.23" then some 123 else none

/-- A transport oracle whose first attempt yields a frame without a value
column (the normalizer raises KeyError on it) and whose later attempts yield a
well-formed frame. -/
def oracleSample : Nat → Except String RawFrame := fun a =>
  if a = 1 then .ok ⟨["TIME_PERIOD"], [["2024-01"]]⟩
  else .ok ⟨["TIME_PERIOD", "OBS_VALUE"], [["2024-01", "1.0"]]⟩

/-! ## C10: the trailing raise RuntimeError is unreachable when retries >= 1 -/

/-- C10: for every call of fetch_series_retry with retries >= 1 the attempt
loop either returns a normalized series or re-raises the exception of the
final attempt, so the trailing raise RuntimeError after the loop is never
reached. -/
theorem fetch_retry_trailing_raise_unreachable (oracle : Nat → Except String RawFrame)
    (pd : String → Option Nat) (tn : String → Option ℚ) (retries : Nat)
    (h : 1 ≤ retries) :
    ((∃ s, fetch_series_retry oracle pd tn retries = .ok s) ∨
      fetch_series_retry oracle pd tn retries = attemptResult oracle pd tn retries) ∧
    ∀ msg, fetch_series_retry oracle pd tn retries ≠ .error (.runtimeError msg) := by
  have hmain : (∃ s, fetch_series_retry oracle pd tn retries = .ok s) ∨
      fetch_series_retry oracle pd tn retries = attemptResult oracle pd tn retries :=
    fetchGo_reaches (attemptResult oracle pd tn) retries retries 1 (by omega) h
  refine ⟨hmain, ?_⟩
  intro msg hcontra
  rcases hmain with ⟨s, hs⟩ | hs
  · rw [hs] at hcontra; exact Except.noConfusion hcontra
  · rw [hs] at hcontra
    exact attemptResult_ne_runtimeError oracle pd tn retries msg hcontra

/-- Witness for C10 at retries = 1 with the sample oracle and parsers. -/
theorem fetch_retry_trailing_raise_unreachable_witness :
    1 ≤ 1 ∧
    (((∃ s, fetch_series_retry oracleSample pdSample tnSample 1 = .ok s) ∨
        fetch_series_retry oracleSample pdSample tnSample 1 =
          attemptResult oracleSample pdSample tnSample 1) ∧
      ∀ msg, fetch_series_retry oracleSample pdSample tnSample 1 ≠
        .error (.runtimeError msg)) :=
  ⟨Nat.le_refl 1,
   fetch_retry_trailing_raise_unreachable oracleSample pdSample tnSample 1 (Nat.le_refl 1)⟩

/-! ## C1: are normalizer (malformed-data) errors retried? -/

/-- Counterexample to C1: the first attempt fails inside the normalizer with a
KeyError (the value column is absent), yet with a remaining retry budget the
orchestrator does not propagate it: it fetches again and returns the second
attempt's series. -/
theorem fetch_retry_normalizer_error_cex :
    attemptResult oracleSample pdSample tnSample 1 =
      .error (.keyError "date/value columns not in index") ∧
    fetch_series_retry oracleSample pdSample tnSample 2 = .ok [(1, 1)] :=
  ⟨rfl, rfl⟩

/-- C1 amended: exceptions raised while normalizing are caught by the same
handler as transport errors, so a normalizer (malformed-data) error on the
first attempt with retries >= 2 does not propagate: the loop proceeds to
attempt 2 with the remaining budget. -/
theorem fetch_retry_retries_normalizer_errors (oracle : Nat → Except String RawFrame)
    (pd : String → Option Nat) (tn : String → Option ℚ) (retries : Nat) (msg : String)
    (h2 : 2 ≤ retries)
    (hm : attemptResult oracle pd tn 1 = .error (.keyError msg)) :
    fetch_series_retry oracle pd tn retries =
      fetchGo (attemptResult oracle pd tn) retries 2 (retries - 1) := by
  obtain ⟨k, rfl⟩ := Nat.exists_eq_add_of_le h2
  have hr : 2 + k = (1 + k) + 1 := by omega
  unfold fetch_series_retry
  rw [hr]
  simp only [fetchGo, hm]
  rw [if_pos (by omega)]
  congr 1

/-- Witness for the amended C1 with the sample oracle at retries = 2. -/
theorem fetch_retry_retries_normalizer_errors_witness :
    2 ≤ 2 ∧
    attemptResult oracleSample pdSample tnSample 1 =
      .error (.keyError "date/value columns not in index") ∧
    fetch_series_retry oracleSample pdSample tnSample 2 =
      fetchGo (attemptResult oracleSample pdSample tnSample) 2 2 1 :=
  ⟨Nat.le_refl 2, rfl,
   fetch_retry_retries_normalizer_errors oracleSample pdSample tnSample 2
     "date/value columns not in index" (Nat.le_refl 2) rfl⟩

/-! ## C3: shape of the normalizer output -/

/-- C3: whenever the date and value columns resolve, the normalizer succeeds
and its output consists of exactly the entries contributed by the rows whose
two cells parse, as a permutation (so malformed rows are dropped and no
default value is substituted), sorted ascending by date, with one entry per
parseable row (duplicate dates are kept, not collapsed). -/
theorem normalizer_shape (pd : String → Option Nat) (tn : String → Option ℚ)
    (date_key value_key : String) (df : RawFrame) (di vi : Nat)
    (h : resolvedIndices df.columns date_key value_key = some (di, vi)) :
    ∃ l, _normalize_ecb_df pd tn date_key value_key df = .ok l ∧
      l.Perm (df.rows.filterMap (parseBoth pd tn di vi)) ∧
      List.Sorted fstLE l ∧
      l.length =
        (df.rows.filter (fun r => (parseBoth pd tn di vi r).isSome)).length := by
  have hnorm : _normalize_ecb_df pd tn date_key value_key df =
      .ok (((df.rows.filterMap (stage1Parse pd di vi)).insertionSort fstLE).filterMap
        (valueParse tn)) := by
    unfold _normalize_ecb_df
    rw [h]
  have hperm :
      (((df.rows.filterMap (stage1Parse pd di vi)).insertionSort fstLE).filterMap
        (valueParse tn)).Perm (df.rows.filterMap (parseBoth pd tn di vi)) := by
    have h1 := (List.perm_insertionSort fstLE
      (df.rows.filterMap (stage1Parse pd di vi))).filterMap (valueParse tn)
    rw [List.filterMap_filterMap] at h1
    have h2 : (fun r => (stage1Parse pd di vi r).bind (valueParse tn)) =
        parseBoth pd tn di vi := by
      funext r
      exact stage1_bind_valueParse pd tn di vi r
    rwa [h2] at h1
  refine ⟨_, hnorm, hperm, ?_, ?_⟩
  · exact pairwise_filterMap_rel (valueParse tn)
      (fun a b c d hab hc hd => by
        unfold fstLE
        rw [valueParse_fst tn a c hc, valueParse_fst tn b d hd]
        exact hab)
      (List.sorted_insertionSort fstLE (df.rows.filterMap (stage1Parse pd di vi)))
  · rw [hperm.length_eq]
    exact length_filterMap_eq (parseBoth pd tn di vi) df.rows

/-- Witness for C3 on a concrete four-row frame with two parseable rows, one
bad date and one bad value. -/
theorem normalizer_shape_witness :
    resolvedIndices ["TIME_PERIOD", "OBS_VALUE"] "TIME_PERIOD" "OBS_VALUE" =
      some (0, 1) ∧
    (∃ l, _normalize_ecb_df pdSample tnSample "TIME_PERIOD" "OBS_VALUE"
        ⟨["TIME_PERIOD", "OBS_VALUE"],
         [["2024-02", "-0,41"], ["2024-01", "-0.40"], ["bad", "1.0"],
          ["2024-03", "xx"]]⟩ = .ok l ∧
      l.Perm ([["2024-02", "-0,41"], ["2024-01", "-0.40"], ["bad", "1.0"],
          ["2024-03", "xx"]].filterMap (parseBoth pdSample tnSample 0 1)) ∧
      List.Sorted fstLE l ∧
      l.length = ([["2024-02", "-0,41"], ["2024-01", "-0.40"], ["bad", "1.0"],
          ["2024-03", "xx"]].filter
            (fun r => (parseBoth pdSample tnSample 0 1 r).isSome)).length) :=
  ⟨rfl, normalizer_shape pdSample tnSample "TIME_PERIOD" "OBS_VALUE"
    ⟨["TIME_PERIOD", "OBS_VALUE"],
     [["2024-02", "-0,41"], ["2024-01", "-0.40"], ["bad", "1.0"],
      ["2024-03", "xx"]]⟩ 0 1 rfl⟩

/-! ## C7: decimal commas and decimal points normalize identically -/

theorem replaceCommaDot_idem (s : String) :
    replaceCommaDot (replaceCommaDot s) = replaceCommaDot s := by
  unfold replaceCommaDot
  simp only [List.map_map]
  congr 1
  apply List.map_congr_left
  intro c _
  by_cases hc : c = ',' <;> simp [hc]

theorem stage1Parse_mapCell (pd : String → Option Nat) (di vi : Nat) (hne : di ≠ vi)
    (r : List String) :
    stage1Parse pd di vi (mapCell replaceCommaDot vi r) =
      (stage1Parse pd di vi r).map (fun p => (p.1, replaceCommaDot p.2)) := by
  unfold stage1Parse
  rw [mapCell_getElem? replaceCommaDot r vi di, mapCell_getElem? replaceCommaDot r vi vi,
    if_neg hne, if_pos rfl]
  cases hd : r[di]? with
  | none => simp
  | some dc =>
    cases hv : r[vi]? with
    | none => simp
    | some vc =>
      cases hp : pd dc <;> simp [hp]

/-- C7: normalizing a frame whose value cells are written with a decimal comma
yields the same numeric series as normalizing the frame whose value cells have
the comma replaced by a decimal point, for any resolved distinct date and
value columns: the comma-to-point replacement inside the normalizer makes the
two inputs indistinguishable. -/
theorem normalizer_decimal_comma_invariant (pd : String → Option Nat)
    (tn : String → Option ℚ) (date_key value_key : String) (df : RawFrame)
    (di vi : Nat) (h : resolvedIndices df.columns date_key value_key = some (di, vi))
    (hne : di ≠ vi) :
    _normalize_ecb_df pd tn date_key value_key (replaceValueCells vi df) =
      _normalize_ecb_df pd tn date_key value_key df := by
  unfold _normalize_ecb_df replaceValueCells
  rw [h]
  dsimp only
  have hstage1 : (df.rows.map (mapCell replaceCommaDot vi)).filterMap
      (stage1Parse pd di vi) =
      (df.rows.filterMap (stage1Parse pd di vi)).map
        (fun p => (p.1, replaceCommaDot p.2)) := by
    rw [List.filterMap_map, List.map_filterMap]
    apply List.filterMap_congr
    intro r _
    exact stage1Parse_mapCell pd di vi hne r
  rw [hstage1]
  rw [← List.map_insertionSort fstLE fstLE (fun p => (p.1, replaceCommaDot p.2))
    (df.rows.filterMap (stage1Parse pd di vi)) (fun a _ b _ => Iff.rfl)]
  rw [List.filterMap_map]
  congr 1
  apply List.filterMap_congr
  intro p _
  unfold valueParse
  simp [Function.comp, replaceCommaDot_idem]

/-- Witness for C7: the comma form of a concrete one-row frame normalizes to
the same series as its point form. -/
theorem normalizer_decimal_comma_invariant_witness :
    resolvedIndices ["TIME_PERIOD", "OBS_VALUE"] "TIME_PERIOD" "OBS_VALUE" =
      some (0, 1) ∧ (0 : Nat) ≠ 1 ∧
    _normalize_ecb_df pdSample tnSample "TIME_PERIOD" "OBS_VALUE"
        (replaceValueCells 1 ⟨["TIME_PERIOD", "OBS_VALUE"], [["2024-01", "-0,41"]]⟩) =
      _normalize_ecb_df pdSample tnSample "TIME_PERIOD" "OBS_VALUE"
        ⟨["TIME_PERIOD", "OBS_VALUE"], [["2024-01", "-0,41"]]⟩ :=
  ⟨rfl, by decide,
   normalizer_decimal_comma_invariant pdSample tnSample "TIME_PERIOD" "OBS_VALUE"
     ⟨["TIME_PERIOD", "OBS_VALUE"], [["2024-01", "-0,41"]]⟩ 0 1 rfl (by decide)⟩

/-! ## C2: behavior of the normalizers on empty or all-dates-failing input -/

/-- Counterexample to C2: on a frame whose only date cell fails to parse (so
the resulting series is empty and every date parse failed) the ecb_suite
normalizer does not fail: it returns an empty series. -/
theorem normalizer_empty_returns_cex :
    pdSample "bad" = none ∧
    _normalize_ecb_df pdSample tnSample "TIME_PERIOD" "OBS_VALUE"
      ⟨["TIME_PERIOD", "OBS_VALUE"], [["bad", "1.0"]]⟩ = .ok [] :=
  ⟨rfl, rfl⟩

theorem stage1Parse_eq_none (pd : String → Option Nat) (di vi : Nat) (r : List String)
    (h : (r[di]?).bind pd = none) : stage1Parse pd di vi r = none := by
  unfold stage1Parse
  cases hd : r[di]? with
  | none => simp
  | some dc =>
    rw [hd] at h
    simp only [Option.some_bind] at h
    cases hv : r[vi]? with
    | none => simp
    | some vc => simp [h]

/-- C2 amended: the two normalizers differ here.  The economics_metrics
fetch_series_dataframe fails with DownloadError exactly when every date cell
fails to parse (in particular a successful result is never empty), while the
ecb_suite _normalize_ecb_df returns an empty series without error in that
case. -/
theorem normalizer_empty_failure_split (pd : String → Option Nat)
    (tn : String → Option ℚ) (vcol : String) (frame : RawFrame) :
    (∀ ti, timeColIdx frame = some ti → (valueColIdx vcol frame).isSome →
      (∀ r ∈ frame.rows, (r[ti]?).bind pd = none) →
      fetch_series_dataframe pd tn vcol frame =
        .error (.downloadError "invalid TIME_PERIOD values")) ∧
    (∀ l, fetch_series_dataframe pd tn vcol frame = .ok l → l ≠ []) ∧
    (∀ dk vk di vi, resolvedIndices frame.columns dk vk = some (di, vi) →
      (∀ r ∈ frame.rows, (r[di]?).bind pd = none) →
      _normalize_ecb_df pd tn dk vk frame = .ok []) := by
  refine ⟨?_, ?_, ?_⟩
  · intro ti hti hvi hall
    obtain ⟨vi, hvi⟩ := Option.isSome_iff_exists.mp hvi
    unfold fetch_series_dataframe
    rw [hti, hvi]
    dsimp only
    rw [if_pos]
    rw [List.all_eq_true]
    intro x hx
    obtain ⟨r, hr, rfl⟩ := List.mem_map.mp hx
    rw [hall r hr]
    rfl
  · intro l hl
    unfold fetch_series_dataframe at hl
    cases hti : timeColIdx frame with
    | none => rw [hti] at hl; exact Except.noConfusion hl
    | some ti =>
      rw [hti] at hl
      cases hvi : valueColIdx vcol frame with
      | none => rw [hvi] at hl; exact Except.noConfusion hl
      | some vi =>
        rw [hvi] at hl
        dsimp only at hl
        by_cases hall : (frame.rows.map (fun r => (r[ti]?).bind pd)).all Option.isNone
        · rw [if_pos hall] at hl; exact Except.noConfusion hl
        · rw [if_neg hall] at hl
          have hl2 := Except.ok.inj hl
          intro hnil
          rw [hnil] at hl2
          have hpairs : frame.rows.filterMap (fun r =>
              ((r[ti]?).bind pd).map (fun d => (d, (r[vi]?).bind tn))) = [] := by
            have hp := List.perm_insertionSort fstLE (frame.rows.filterMap (fun r =>
              ((r[ti]?).bind pd).map (fun d => (d, (r[vi]?).bind tn))))
            rw [hl2] at hp
            exact hp.symm.eq_nil
          apply hall
          rw [List.all_eq_true]
          intro x hx
          obtain ⟨r, hr, rfl⟩ := List.mem_map.mp hx
          have := List.filterMap_eq_nil_iff.mp hpairs r hr
          cases hcase : (r[ti]?).bind pd with
          | none => rfl
          | some d => rw [hcase] at this; exact Option.noConfusion this
  · intro dk vk di vi h hall
    unfold _normalize_ecb_df
    rw [h]
    dsimp only
    have hstage : frame.rows.filterMap (stage1Parse pd di vi) = [] := by
      rw [List.filterMap_eq_nil_iff]
      intro r hr
      exact stage1Parse_eq_none pd di vi r (hall r hr)
    rw [hstage]
    rfl

/-- Witness for the amended C2 on a one-row frame whose date cell fails to
parse: fetch_series_dataframe raises, _normalize_ecb_df returns empty. -/
theorem normalizer_empty_failure_split_witness :
    (∀ r ∈ ([["bad", "1.0"]] : List (List String)), (r[0]?).bind pdSample = none) ∧
    fetch_series_dataframe pdSample tnSample "OBS_VALUE"
      ⟨["TIME_PERIOD", "OBS_VALUE"], [["bad", "1.0"]]⟩ =
        .error (.downloadError "invalid TIME_PERIOD values") ∧
    _normalize_ecb_df pdSample tnSample "TIME_PERIOD" "OBS_VALUE"
      ⟨["TIME_PERIOD", "OBS_VALUE"], [["bad", "1.0"]]⟩ = .ok [] := by
  refine ⟨by decide, ?_, ?_⟩
  · exact (normalizer_empty_failure_split pdSample tnSample "OBS_VALUE"
      ⟨["TIME_PERIOD", "OBS_VALUE"], [["bad", "1.0"]]⟩).1 0 rfl (by decide) (by decide)
  · exact (normalizer_empty_failure_split pdSample tnSample "OBS_VALUE"
      ⟨["TIME_PERIOD", "OBS_VALUE"], [["bad", "1.0"]]⟩).2.2 "TIME_PERIOD" "OBS_VALUE"
      0 1 rfl (by decide)

/-! ## C5: alignment of the multi-series collector -/

theorem collectCols_ok (fetch : String → Except PyError (List (Nat × ℚ)))
    {m : List (String × String)} {ss : List (List (Nat × ℚ))}
    (h : List.Forall₂ (fun nk s => fetch nk.2 = Except.ok s) m ss) :
    collectCols fetch m = .ok (List.zipWith (fun nk s => (nk.1, s)) m ss) := by
  induction h with
  | nil => rfl
  | cons h1 _ ih => simp [collectCols, h1, ih]

theorem zipWith_pair_map_fst {α β : Type} (m : List (α × α)) :
    ∀ ss : List β, m.length = ss.length →
      (List.zipWith (fun nk s => (nk.1, s)) m ss).map Prod.fst = m.map Prod.fst := by
  induction m with
  | nil => intro ss _; simp
  | cons nk m ih =>
    intro ss hlen
    cases ss with
    | nil => simp at hlen
    | cons s ss => simp [ih ss (by simpa using hlen)]

theorem zipWith_pair_map_snd {α β : Type} (m : List (α × α)) :
    ∀ ss : List β, m.length = ss.length →
      (List.zipWith (fun nk s => (nk.1, s)) m ss).map Prod.snd = ss := by
  induction m with
  | nil =>
    intro ss hlen
    cases ss with
    | nil => simp
    | cons s ss => simp at hlen
  | cons nk m ih =>
    intro ss hlen
    cases ss with
    | nil => simp at hlen
    | cons s ss => simp [ih ss (by simpa using hlen)]

theorem zipWith_pair_getElem? {α β : Type} (m : List (α × α)) :
    ∀ (ss : List β) (i : Nat) (s : β), m.length = ss.length → ss[i]? = some s →
      ∃ nm : α, (List.zipWith (fun nk s => (nk.1, s)) m ss)[i]? = some (nm, s) := by
  induction m with
  | nil => intro ss i s hlen hs; cases ss <;> simp_all
  | cons nk m ih =>
    intro ss i s hlen hs
    cases ss with
    | nil => simp at hlen
    | cons s0 ss =>
      cases i with
      | zero =>
        simp only [List.getElem?_cons_zero, Option.some.injEq] at hs
        subst hs
        exact ⟨nk.1, by simp⟩
      | succ i =>
        simp only [List.getElem?_cons_succ] at hs
        simpa using ih ss i s (by simpa using hlen) hs

theorem concatAxis1_rows_fst (cols : List (String × List (Nat × ℚ))) :
    ((concatAxis1 cols).rows).map Prod.fst =
      List.insertionSort (fun a b : Nat => a ≤ b)
        (firstSeen (cols.flatMap (fun c => c.2.map Prod.fst))) := by
  unfold concatAxis1
  dsimp only
  rw [List.map_map]
  have h : (Prod.fst ∘ fun d : Nat =>
      (d, cols.map (fun c => (c.2.find? (fun p => p.1 == d)).map Prod.snd))) = id := by
    funext d; rfl
  rw [h, List.map_id]

theorem concatAxis1_row_cells (cols : List (String × List (Nat × ℚ)))
    (row : Nat × List (Option ℚ)) (hrow : row ∈ (concatAxis1 cols).rows) :
    row.2 = cols.map (fun c => (c.2.find? (fun p => p.1 == row.1)).map Prod.snd) := by
  unfold concatAxis1 at hrow
  dsimp only at hrow
  obtain ⟨d, _, rfl⟩ := List.mem_map.mp hrow
  rfl

/-- C5: when every mapped series fetch succeeds, the collector succeeds and
its wide table has one column per friendly name in the mapping's order, its
row dates are the union of the dates of all fetched series sorted strictly
ascending, and a date absent from the i-th series leaves the i-th cell of that
row absent (none), not zero-filled. -/
theorem collector_alignment (fetch : String → Except PyError (List (Nat × ℚ)))
    (series_map : List (String × String)) (ss : List (List (Nat × ℚ)))
    (hf : List.Forall₂ (fun nk s => fetch nk.2 = Except.ok s) series_map ss) :
    ∃ t, download_euribor_all fetch series_map = .ok t ∧
      t.columns = series_map.map Prod.fst ∧
      List.Sorted (fun a b : Nat => a < b) (t.rows.map Prod.fst) ∧
      (∀ d : Nat, d ∈ t.rows.map Prod.fst ↔ ∃ s ∈ ss, ∃ v : ℚ, (d, v) ∈ s) ∧
      ∀ row ∈ t.rows, row.2.length = ss.length ∧
        ∀ (i : Nat) (s : List (Nat × ℚ)), ss[i]? = some s →
          (∀ v : ℚ, (row.1, v) ∉ s) → row.2[i]? = some none := by
  have hlen := hf.length_eq
  have hcc := collectCols_ok fetch hf
  refine ⟨concatAxis1 (List.zipWith (fun nk s => (nk.1, s)) series_map ss), ?_, ?_, ?_, ?_, ?_⟩
  · unfold download_euribor_all
    rw [hcc]
  · show (List.zipWith (fun nk s => (nk.1, s)) series_map ss).map Prod.fst =
      series_map.map Prod.fst
    exact zipWith_pair_map_fst series_map ss hlen
  · rw [concatAxis1_rows_fst]
    have hs := List.sorted_insertionSort (fun a b : Nat => a ≤ b)
      (firstSeen ((List.zipWith (fun nk s => (nk.1, s)) series_map ss).flatMap
        (fun c => c.2.map Prod.fst)))
    have hn : (List.insertionSort (fun a b : Nat => a ≤ b)
        (firstSeen ((List.zipWith (fun nk s => (nk.1, s)) series_map ss).flatMap
          (fun c => c.2.map Prod.fst)))).Nodup :=
      (List.perm_insertionSort _ _).nodup_iff.mpr (nodup_firstSeen _)
    exact hs.lt_of_le hn
  · intro d
    rw [concatAxis1_rows_fst, List.mem_insertionSort, mem_firstSeen, List.mem_flatMap]
    constructor
    · rintro ⟨c, hc, hdc⟩
      obtain ⟨p, hp, hpd⟩ := List.mem_map.mp hdc
      subst hpd
      refine ⟨c.2, ?_, p.2, hp⟩
      have hmm : c.2 ∈ (List.zipWith (fun nk s => (nk.1, s)) series_map ss).map Prod.snd :=
        List.mem_map_of_mem Prod.snd hc
      rwa [zipWith_pair_map_snd series_map ss hlen] at hmm
    · rintro ⟨s, hs, v, hv⟩
      have hs2 : s ∈ (List.zipWith (fun nk s => (nk.1, s)) series_map ss).map Prod.snd := by
        rw [zipWith_pair_map_snd series_map ss hlen]; exact hs
      obtain ⟨c, hc, hceq⟩ := List.mem_map.mp hs2
      exact ⟨c, hc, List.mem_map.mpr ⟨(d, v), by rw [hceq]; exact hv, rfl⟩⟩
  · intro row hrow
    have hcells := concatAxis1_row_cells _ row hrow
    constructor
    · rw [hcells, List.length_map, List.length_zipWith, hlen, Nat.min_self]
    · intro i s hsi habs
      rw [hcells, List.getElem?_map]
      obtain ⟨nm, hnm⟩ := zipWith_pair_getElem? series_map ss i s hlen hsi
      rw [hnm]
      have hfind : s.find? (fun p => p.1 == row.1) = none := by
        rw [List.find?_eq_none]
        intro p hp hbeq
        have hpd : p.1 = row.1 := by simpa using hbeq
        exact habs p.2 (by rw [← hpd]; exact hp)
      simp [hfind]

/-- A concrete fetch collaborator for the collector witness: two overlapping
monthly series. -/
def fetchSampleW : String → Except PyError (List (Nat × ℚ)) := fun k =>
  if k = "k1" then .ok [(1, 10), (2, 20), (3, 30)]
  else if k = "k2" then .ok [(2, 4), (3, 5), (4, 6)] else .ok []

/-- Witness for C5 on two series covering months 1-3 and 2-4. -/
theorem collector_alignment_witness :
    List.Forall₂ (fun nk s => fetchSampleW nk.2 = Except.ok s)
      [("a", "k1"), ("b", "k2")] [[(1, 10), (2, 20), (3, 30)], [(2, 4), (3, 5), (4, 6)]] ∧
    (∃ t, download_euribor_all fetchSampleW [("a", "k1"), ("b", "k2")] = .ok t ∧
      t.columns = [("a", "k1"), ("b", "k2")].map Prod.fst ∧
      List.Sorted (fun a b : Nat => a < b) (t.rows.map Prod.fst) ∧
      (∀ d : Nat, d ∈ t.rows.map Prod.fst ↔
        ∃ s ∈ [[(1, (10 : ℚ)), (2, 20), (3, 30)], [(2, 4), (3, 5), (4, 6)]], ∃ v : ℚ, (d, v) ∈ s) ∧
      ∀ row ∈ t.rows,
        row.2.length = [[(1, (10 : ℚ)), (2, 20), (3, 30)], [(2, 4), (3, 5), (4, 6)]].length ∧
        ∀ (i : Nat) (s : List (Nat × ℚ)),
          [[(1, (10 : ℚ)), (2, 20), (3, 30)], [(2, 4), (3, 5), (4, 6)]][i]? = some s →
          (∀ v : ℚ, (row.1, v) ∉ s) → row.2[i]? = some none) :=
  ⟨List.Forall₂.cons rfl (List.Forall₂.cons rfl List.Forall₂.nil),
   collector_alignment fetchSampleW [("a", "k1"), ("b", "k2")]
     [[(1, 10), (2, 20), (3, 30)], [(2, 4), (3, 5), (4, 6)]]
     (List.Forall₂.cons rfl (List.Forall₂.cons rfl List.Forall₂.nil))⟩

/-! ## C6 and C9: the tidy builder skips empty series -/

theorem tidyGeoLoop_ok (fetch : String → Except PyError (List (Nat × ℚ)))
    (sector_name coicop measure : String) (hm : measure ∈ MEASURE_CHOICES)
    (geos : List String)
    (hok : ∀ g ∈ geos, ∃ s, fetch (hicpKeyStr g coicop measure) = Except.ok s) :
    ∃ rows, tidyGeoLoop fetch sector_name coicop measure geos = .ok rows ∧
      ∀ o : TidyObs, o ∈ rows ↔ ∃ g ∈ geos, ∃ s,
        fetch (hicpKeyStr g coicop measure) = Except.ok s ∧
        o.sector = sector_name ∧ o.geo = g ∧ (o.date, o.value) ∈ s := by
  induction geos with
  | nil => exact ⟨[], rfl, by simp⟩
  | cons g rest ih =>
    obtain ⟨s, hs⟩ := hok g (List.mem_cons_self g rest)
    obtain ⟨tail, htail, htmem⟩ := ih (fun g2 hg2 => hok g2 (List.mem_cons_of_mem _ hg2))
    have hkey : _hicp_key g coicop measure = .ok (hicpKeyStr g coicop measure) := by
      unfold _hicp_key; rw [if_pos hm]
    refine ⟨(if s.isEmpty then []
        else s.map (fun p => TidyObs.mk p.1 sector_name g p.2)) ++ tail, ?_, ?_⟩
    · simp [tidyGeoLoop, hkey, hs, htail]
    · intro o
      rw [List.mem_append, htmem o]
      constructor
      · rintro (hhere | ⟨g2, hg2, s2, hs2, ho⟩)
        · by_cases hse : s.isEmpty
          · rw [if_pos hse] at hhere
            exact absurd hhere (List.not_mem_nil o)
          · rw [if_neg hse] at hhere
            obtain ⟨p, hp, hpo⟩ := List.mem_map.mp hhere
            refine ⟨g, List.mem_cons_self g rest, s, hs, ?_, ?_, ?_⟩
            · rw [← hpo]
            · rw [← hpo]
            · rw [← hpo]; exact hp
        · exact ⟨g2, List.mem_cons_of_mem g hg2, s2, hs2, ho⟩
      · rintro ⟨g2, hg2, s2, hs2, ho1, ho2, ho3⟩
        rcases List.mem_cons.mp hg2 with rfl | hg2
        · rw [hs] at hs2
          obtain rfl := Except.ok.inj hs2
          left
          have hne : ¬ s.isEmpty := by
            intro hse
            rw [List.isEmpty_iff.mp hse] at ho3
            exact List.not_mem_nil _ ho3
          rw [if_neg hne]
          refine List.mem_map.mpr ⟨(o.date, o.value), ho3, ?_⟩
          cases o with
          | mk od os og ov =>
            simp only at ho1 ho2
            rw [ho1, ho2]
        · exact Or.inr ⟨g2, hg2, s2, hs2, ho1, ho2, ho3⟩

theorem tidySectorLoop_ok (fetch : String → Except PyError (List (Nat × ℚ)))
    (measure : String) (geos : List String) (hm : measure ∈ MEASURE_CHOICES)
    (sectors : List (String × String))
    (hok : ∀ sc ∈ sectors, ∀ g ∈ geos, ∃ s,
      fetch (hicpKeyStr g sc.2 measure) = Except.ok s) :
    ∃ rows, tidySectorLoop fetch measure geos sectors = .ok rows ∧
      ∀ o : TidyObs, o ∈ rows ↔ ∃ sc ∈ sectors, ∃ g ∈ geos, ∃ s,
        fetch (hicpKeyStr g sc.2 measure) = Except.ok s ∧
        o.sector = sc.1 ∧ o.geo = g ∧ (o.date, o.value) ∈ s := by
  induction sectors with
  | nil => exact ⟨[], rfl, by simp⟩
  | cons sc rest ih =>
    obtain ⟨here, hhere, hhmem⟩ := tidyGeoLoop_ok fetch sc.1 sc.2 measure hm geos
      (hok sc (List.mem_cons_self sc rest))
    obtain ⟨tail, htail, htmem⟩ := ih (fun sc2 hsc2 => hok sc2 (List.mem_cons_of_mem _ hsc2))
    refine ⟨here ++ tail, ?_, ?_⟩
    · simp [tidySectorLoop, hhere, htail]
    · intro o
      rw [List.mem_append, hhmem o, htmem o]
      constructor
      · rintro (⟨g, hg, s, hsf, ho⟩ | ⟨sc2, hsc2, rest2⟩)
        · exact ⟨sc, List.mem_cons_self sc rest, g, hg, s, hsf, ho⟩
        · exact ⟨sc2, List.mem_cons_of_mem sc hsc2, rest2⟩
      · rintro ⟨sc2, hsc2, g, hg, s, hsf, ho⟩
        rcases List.mem_cons.mp hsc2 with rfl | hsc2
        · exact Or.inl ⟨g, hg, s, hsf, ho⟩
        · exact Or.inr ⟨sc2, hsc2, g, hg, s, hsf, ho⟩

/-- C6: when the measure is valid and every (sector, entity) fetch returns,
the tidy builder returns without error a table whose rows are exactly the
tagged entries of the non-empty fetched series: a pair whose fetch returned an
empty series contributes no observation, and all remaining pairs are still
processed. -/
theorem tidy_skips_empty (fetch : String → Except PyError (List (Nat × ℚ)))
    (sectors : List (String × String)) (geos : List String) (measure : String)
    (hm : measure ∈ MEASURE_CHOICES)
    (hok : ∀ sc ∈ sectors, ∀ g ∈ geos, ∃ s,
      fetch (hicpKeyStr g sc.2 measure) = Except.ok s) :
    ∃ tbl, hicp_by_sector_long fetch sectors geos measure = .ok tbl ∧
      tbl.columns = ["date", "sector", "geo", "value"] ∧
      ∀ o : TidyObs, o ∈ tbl.rows ↔ ∃ sc ∈ sectors, ∃ g ∈ geos, ∃ s,
        fetch (hicpKeyStr g sc.2 measure) = Except.ok s ∧
        o.sector = sc.1 ∧ o.geo = g ∧ (o.date, o.value) ∈ s := by
  obtain ⟨rows, hrows, hmem⟩ := tidySectorLoop_ok fetch measure geos hm sectors hok
  refine ⟨⟨["date", "sector", "geo", "value"], rows.insertionSort tidyLE⟩, ?_, rfl, ?_⟩
  · unfold hicp_by_sector_long
    rw [hrows]
  · intro o
    rw [show (⟨["date", "sector", "geo", "value"],
        rows.insertionSort tidyLE⟩ : TidyTable).rows = rows.insertionSort tidyLE from rfl,
      List.mem_insertionSort]
    exact hmem o

/-- The series data behind the tidy witness fetch: three of the four
(sector, entity) pairs have data, the ENERGY and FR pair is empty. -/
def fetchListT : String → List (Nat × ℚ) := fun k =>
  if k = "ICP.M.DE.N.000000.4.ANR" then [(1, 2)]
  else if k = "ICP.M.FR.N.000000.4.ANR" then [(1, 3)]
  else if k = "ICP.M.DE.N.NRGY00.4.ANR" then [(1, 4)] else []

/-- A concrete always-returning fetch collaborator for the tidy witness. -/
def fetchSampleT : String → Except PyError (List (Nat × ℚ)) := fun k => .ok (fetchListT k)

/-- Witness for C6 on the two-sector, two-entity sweep whose last pair fetches
an empty series. -/
theorem tidy_skips_empty_witness :
    "ANR" ∈ MEASURE_CHOICES ∧
    (∀ sc ∈ [("ALL", "000000"), ("ENERGY", "NRGY00")], ∀ g ∈ ["DE", "FR"], ∃ s,
      fetchSampleT (hicpKeyStr g sc.2 "ANR") = Except.ok s) ∧
    (∃ tbl, hicp_by_sector_long fetchSampleT [("ALL", "000000"), ("ENERGY", "NRGY00")]
        ["DE", "FR"] "ANR" = .ok tbl ∧
      tbl.columns = ["date", "sector", "geo", "value"] ∧
      ∀ o : TidyObs, o ∈ tbl.rows ↔
        ∃ sc ∈ [("ALL", "000000"), ("ENERGY", "NRGY00")], ∃ g ∈ ["DE", "FR"], ∃ s,
          fetchSampleT (hicpKeyStr g sc.2 "ANR") = Except.ok s ∧
          o.sector = sc.1 ∧ o.geo = g ∧ (o.date, o.value) ∈ s) :=
  ⟨by decide,
   fun sc _ g _ => ⟨fetchListT (hicpKeyStr g sc.2 "ANR"), rfl⟩,
   tidy_skips_empty fetchSampleT [("ALL", "000000"), ("ENERGY", "NRGY00")] ["DE", "FR"]
     "ANR" (by decide)
     (fun sc _ g _ => ⟨fetchListT (hicpKeyStr g sc.2 "ANR"), rfl⟩)⟩

/-- C9: when the measure is valid and every (sector, entity) fetch yields an
empty series, the tidy builder returns, without error, an empty table whose
columns are exactly date, sector, geo, value in that order. -/
theorem tidy_all_empty_table (fetch : String → Except PyError (List (Nat × ℚ)))
    (sectors : List (String × String)) (geos : List String) (measure : String)
    (hm : measure ∈ MEASURE_CHOICES)
    (hemp : ∀ sc ∈ sectors, ∀ g ∈ geos,
      fetch (hicpKeyStr g sc.2 measure) = Except.ok []) :
    hicp_by_sector_long fetch sectors geos measure =
      .ok ⟨["date", "sector", "geo", "value"], []⟩ := by
  obtain ⟨rows, hrows, hmem⟩ := tidySectorLoop_ok fetch measure geos hm sectors
    (fun sc hsc g hg => ⟨[], hemp sc hsc g hg⟩)
  have hnil : rows = [] := by
    rw [List.eq_nil_iff_forall_not_mem]
    intro o ho
    obtain ⟨sc, hsc, g, hg, s, hsf, _, _, ho3⟩ := (hmem o).mp ho
    rw [hemp sc hsc g hg] at hsf
    obtain rfl := Except.ok.inj hsf
    exact List.not_mem_nil _ ho3
  unfold hicp_by_sector_long
  rw [hrows, hnil]
  rfl

/-- Witness for C9: a sweep whose single fetch returns an empty series. -/
theorem tidy_all_empty_table_witness :
    "ANR" ∈ MEASURE_CHOICES ∧
    (∀ sc ∈ [("ALL", "000000")], ∀ g ∈ ["DE"],
      (fun _ => (Except.ok [] : Except PyError (List (Nat × ℚ))))
        (hicpKeyStr g sc.2 "ANR") = Except.ok []) ∧
    hicp_by_sector_long (fun _ => .ok []) [("ALL", "000000")] ["DE"] "ANR" =
      .ok ⟨["date", "sector", "geo", "value"], []⟩ :=
  ⟨by decide, fun _ _ _ _ => rfl,
   tidy_all_empty_table (fun _ => .ok []) [("ALL", "000000")] ["DE"] "ANR" (by decide)
     (fun _ _ _ _ => rfl)⟩

/-! ## C4: pivot value-column order -/

theorem mem_pivot_table_cols (labels : List String) (c : String) :
    c ∈ pivot_table_cols labels ↔ c ∈ labels := by
  unfold pivot_table_cols
  rw [List.mem_insertionSort, mem_firstSeen]

theorem sorted_pivot_table_cols (labels : List String) :
    List.Sorted strLE (pivot_table_cols labels) :=
  List.sorted_insertionSort strLE (firstSeen labels)

theorem nodup_pivot_table_cols (labels : List String) :
    (pivot_table_cols labels).Nodup :=
  (List.perm_insertionSort strLE (firstSeen labels)).nodup_iff.mpr (nodup_firstSeen labels)

theorem pivots_filterbyCountry_valueCols (t : List TidyObs) (cfg : List String) :
    (pivots_filterbyCountry t cfg).valueCols =
      (cfg.filter (fun c =>
        decide (c ∈ ["date", "country"] ++ pivot_table_cols (t.map fun o => o.sector)))) ++
      ((["date", "country"] ++ pivot_table_cols (t.map fun o => o.sector)).filter (fun c =>
        decide (c ∉ (cfg.filter (fun c =>
          decide (c ∈ ["date", "country"] ++ pivot_table_cols (t.map fun o => o.sector))))
            ++ ["date", "country"]))) := rfl

theorem pivots_filterbySector_valueCols (t : List TidyObs) (geos : List String) :
    (pivots_filterbySector t geos).valueCols =
      (geos.filter (fun c =>
        decide (c ∈ ["date", "sector"] ++ pivot_table_cols (t.map fun o => o.geo)))) ++
      ((["date", "sector"] ++ pivot_table_cols (t.map fun o => o.geo)).filter (fun c =>
        decide (c ∉ (geos.filter (fun c =>
          decide (c ∈ ["date", "sector"] ++ pivot_table_cols (t.map fun o => o.geo))))
            ++ ["date", "sector"]))) := rfl

theorem pivot_reorder_valueCols (pivotCols cfg : List String) (k1 k2 : String)
    (hk1 : k1 ∉ cfg) (hk2 : k2 ∉ cfg)
    (hp : ∀ c ∈ pivotCols, c ≠ k1 ∧ c ≠ k2) :
    (cfg.filter (fun c => decide (c ∈ [k1, k2] ++ pivotCols))) ++
      (([k1, k2] ++ pivotCols).filter (fun c =>
        decide (c ∉ (cfg.filter (fun c => decide (c ∈ [k1, k2] ++ pivotCols)))
          ++ [k1, k2]))) =
    (cfg.filter (fun c => decide (c ∈ pivotCols)))
      ++ pivotCols.filter (fun c => decide (c ∉ cfg)) := by
  have hA : cfg.filter (fun c => decide (c ∈ [k1, k2] ++ pivotCols)) =
      cfg.filter (fun c => decide (c ∈ pivotCols)) := by
    apply List.filter_congr
    intro c hc
    have hck1 : c ≠ k1 := fun h => hk1 (h ▸ hc)
    have hck2 : c ≠ k2 := fun h => hk2 (h ▸ hc)
    apply decide_eq_decide.mpr
    simp [List.mem_append, List.mem_cons, hck1, hck2]
  rw [hA]
  congr 1
  rw [List.filter_append]
  have hhead : List.filter (fun c =>
      decide (c ∉ (cfg.filter (fun c => decide (c ∈ pivotCols))) ++ [k1, k2])) [k1, k2]
      = [] := by
    rw [List.filter_eq_nil_iff]
    intro a ha
    simp only [decide_eq_true_eq, not_not]
    exact List.mem_append_right _ ha
  rw [hhead, List.nil_append]
  apply List.filter_congr
  intro c hcp
  obtain ⟨hne1, hne2⟩ := hp c hcp
  apply decide_eq_decide.mpr
  constructor
  · intro hnot hcfg
    exact hnot (List.mem_append_left _ (List.mem_filter.mpr
      ⟨hcfg, by simpa using hcp⟩))
  · intro hnot hmem
    rcases List.mem_append.mp hmem with hmem | hmem
    · exact hnot (List.mem_filter.mp hmem).1
    · rcases List.mem_cons.mp hmem with rfl | hmem
      · exact hne1 rfl
      · rcases List.mem_cons.mp hmem with rfl | hmem
        · exact hne2 rfl
        · exact List.not_mem_nil c hmem

/-- A two-row tidy table whose sectors are both unexpected, first seen in the
order ZZ then AA. -/
def exTidy : List TidyObs := [⟨1, "ZZ", "DE", 1⟩, ⟨1, "AA", "DE", 2⟩]

/-- Counterexample to C4: the pivot engine appends the unexpected sector
columns in sorted order (AA before ZZ), not in first-seen (encounter) order
(ZZ before AA) as the claim states. -/
theorem pivot_extra_column_order_cex :
    (pivots_from_hicp_long exTidy ["FOOD"] ["DE"]).1.valueCols = ["AA", "ZZ"] ∧
    specByEntityValueCols exTidy ["FOOD"] = ["ZZ", "AA"] ∧
    (pivots_from_hicp_long exTidy ["FOOD"] ["DE"]).1.valueCols ≠
      specByEntityValueCols exTidy ["FOOD"] :=
  ⟨rfl, rfl, by decide⟩

/-- C4 amended: for tidy inputs and configurations that never use the
reserved labels of the leading key columns, the by-entity value columns are
the configured categories that occur in the input, in configured order,
followed by the unexpected categories in ascending lexicographic order (not
first-seen order): a duplicate-free sorted list holding exactly the occurring
non-configured categories; and symmetrically for the by-category view with
entity codes. -/
theorem pivot_column_order (t : List TidyObs) (cfg geos : List String)
    (hc1 : "date" ∉ cfg) (hc2 : "country" ∉ cfg)
    (hs : ∀ o ∈ t, o.sector ≠ "date" ∧ o.sector ≠ "country")
    (hg1 : "date" ∉ geos) (hg2 : "sector" ∉ geos)
    (hgeo : ∀ o ∈ t, o.geo ≠ "date" ∧ o.geo ≠ "sector") :
    ((pivots_from_hicp_long t cfg geos).1.valueCols =
        (cfg.filter (fun c => decide (c ∈ pivot_table_cols (t.map fun o => o.sector))))
          ++ (pivot_table_cols (t.map fun o => o.sector)).filter
              (fun c => decide (c ∉ cfg)) ∧
      List.Sorted strLE ((pivot_table_cols (t.map fun o => o.sector)).filter
        (fun c => decide (c ∉ cfg))) ∧
      ((pivot_table_cols (t.map fun o => o.sector)).filter
        (fun c => decide (c ∉ cfg))).Nodup ∧
      ∀ c, c ∈ (pivot_table_cols (t.map fun o => o.sector)).filter
          (fun c => decide (c ∉ cfg)) ↔ ((∃ o ∈ t, o.sector = c) ∧ c ∉ cfg)) ∧
    ((pivots_from_hicp_long t cfg geos).2.valueCols =
        (geos.filter (fun c => decide (c ∈ pivot_table_cols (t.map fun o => o.geo))))
          ++ (pivot_table_cols (t.map fun o => o.geo)).filter
              (fun c => decide (c ∉ geos)) ∧
      List.Sorted strLE ((pivot_table_cols (t.map fun o => o.geo)).filter
        (fun c => decide (c ∉ geos))) ∧
      ((pivot_table_cols (t.map fun o => o.geo)).filter
        (fun c => decide (c ∉ geos))).Nodup ∧
      ∀ c, c ∈ (pivot_table_cols (t.map fun o => o.geo)).filter
          (fun c => decide (c ∉ geos)) ↔ ((∃ o ∈ t, o.geo = c) ∧ c ∉ geos)) := by
  constructor
  · refine ⟨?_, ?_, ?_, ?_⟩
    · rw [show (pivots_from_hicp_long t cfg geos).1 = pivots_filterbyCountry t cfg from rfl,
        pivots_filterbyCountry_valueCols]
      apply pivot_reorder_valueCols _ _ _ _ hc1 hc2
      intro c hcp
      obtain ⟨o, ho, rfl⟩ := by
        simpa [List.mem_map] using (mem_pivot_table_cols _ c).mp hcp
      exact hs o ho
    · exact (sorted_pivot_table_cols _).filter _
    · exact (nodup_pivot_table_cols _).filter _
    · intro c
      rw [List.mem_filter, mem_pivot_table_cols]
      simp [List.mem_map]
  · refine ⟨?_, ?_, ?_, ?_⟩
    · rw [show (pivots_from_hicp_long t cfg geos).2 = pivots_filterbySector t geos from rfl,
        pivots_filterbySector_valueCols]
      apply pivot_reorder_valueCols _ _ _ _ hg1 hg2
      intro c hcp
      obtain ⟨o, ho, rfl⟩ := by
        simpa [List.mem_map] using (mem_pivot_table_cols _ c).mp hcp
      exact hgeo o ho
    · exact (sorted_pivot_table_cols _).filter _
    · exact (nodup_pivot_table_cols _).filter _
    · intro c
      rw [List.mem_filter, mem_pivot_table_cols]
      simp [List.mem_map]

/-- Witness for the amended C4 on a one-row tidy table with one configured
sector present, one configured sector absent, and an unexpected entity. -/
theorem pivot_column_order_witness :
    ("date" ∉ ["ALL", "FOOD"] ∧ "country" ∉ ["ALL", "FOOD"] ∧
      (∀ o ∈ [(⟨1, "ALL", "DE", 2⟩ : TidyObs)], o.sector ≠ "date" ∧ o.sector ≠ "country") ∧
      "date" ∉ ["FR"] ∧ "sector" ∉ ["FR"] ∧
      (∀ o ∈ [(⟨1, "ALL", "DE", 2⟩ : TidyObs)], o.geo ≠ "date" ∧ o.geo ≠ "sector")) ∧
    (pivots_from_hicp_long [(⟨1, "ALL", "DE", 2⟩ : TidyObs)] ["ALL", "FOOD"]
        ["FR"]).1.valueCols =
      ((["ALL", "FOOD"].filter (fun c => decide (c ∈ pivot_table_cols
          ([(⟨1, "ALL", "DE", 2⟩ : TidyObs)].map fun o => o.sector))))
        ++ (pivot_table_cols ([(⟨1, "ALL", "DE", 2⟩ : TidyObs)].map fun o => o.sector)).filter
            (fun c => decide (c ∉ ["ALL", "FOOD"]))) :=
  ⟨⟨by decide, by decide, by decide, by decide, by decide, by decide⟩,
   ((pivot_column_order [(⟨1, "ALL", "DE", 2⟩ : TidyObs)] ["ALL", "FOOD"] ["FR"]
     (by decide) (by decide) (by decide) (by decide) (by decide) (by decide)).1).1⟩

/-! ## C8: serialized artifact formats -/

/-- Counterexample to C8: the US CPI inflation artifact is a price-index
artifact, yet its write site passes float_format %.6f, not the %.4f the claim
assigns to price-index artifacts. -/
theorem artifact_precision_cex :
    (OutputArtifact.mk "us_inflation.csv" "price_index" "%.6f" "%Y-%m-%d")
        ∈ serializedArtifacts ∧
    specFloatFormat "price_index" = "%.4f" ∧
    (OutputArtifact.mk "us_inflation.csv" "price_index" "%.6f" "%Y-%m-%d").float_format ≠
      specFloatFormat
        (OutputArtifact.mk "us_inflation.csv" "price_index" "%.6f" "%Y-%m-%d").kind := by
  refine ⟨by decide, rfl, by decide⟩

/-- C8 amended: every serialized artifact formats its date column as
YYYY-MM-DD; interest-rate and FX artifacts use 6 decimal places; the HICP
price-index artifacts use 4 decimal places, but the US CPI inflation
artifacts (price indices as well) use 6. -/
theorem artifact_precision_amended :
    serializedArtifacts.all (fun a =>
      a.date_format == "%Y-%m-%d"
      && (if a.kind == "interest_rate" || a.kind == "fx"
          then a.float_format == "%.6f" else true)
      && (if a.kind == "price_index"
            && !(a.name == "us_inflation.csv" || a.name == "data/us_inflation.csv")
          then a.float_format == "%.4f" else true)
      && (if a.name == "us_inflation.csv" || a.name == "data/us_inflation.csv"
          then a.float_format == "%.6f" else true)) = true := by
  decide

end EconMetrics
